import Mathlib

/-!
Formal model of the two command-line scripts of the `taskmanager` repository:
`add_youtube_credentials.py` (the Credential Writer) and
`extract_credentials.py` (the Credential Extractor).

Python strings are modelled as `List Char`.  The credential store
`api_keys.txt` is modelled by its full content, a `List Char`; an absent file
is `none`.  Reading the store uses a model of `file.readlines()` and writing
uses a model of `file.writelines(lines)` (plain concatenation).  Newlines are
taken to be `'\n'` only.  Standard output is modelled as the list of executed
`print` calls, in order.
-/

namespace TaskManager

/-- A Python string, modelled as its list of characters. -/
abbrev PyStr : Type := List Char

/-- Model of `file.readlines()` for a file whose content is `cs`: the list of
lines, each keeping its terminating `'\n'`; a final line with no terminator is
returned without one.  (`readlines` on `"a\nb"` gives `["a\n", "b"]`.) -/
def splitLines : PyStr → List PyStr
  | [] => []
  | c :: cs =>
    if c = '\n' then ['\n'] :: splitLines cs
    else
      match splitLines cs with
      | [] => [[c]]
      | l :: ls => (c :: l) :: ls

/-- One line printed to standard output by a `print(...)` call.  `generic` is
the catch-all handler's `print` of a message whose tail is the text of a raised
builtin exception; that text always begins with an error marker and is not
modelled further. -/
inductive OutLine where
  | text (s : PyStr)
  | generic
deriving DecidableEq

/-! ## Credential Writer: `add_youtube_credentials.py` -/

/-- Line 22: `client_id_key = f"{project_name}_YouTube_Client_ID"`. -/
def client_id_key (project_name : PyStr) : PyStr :=
  project_name ++ ("_YouTube_Client_ID".toList)

/-- Line 23: `client_secret_key = f"{project_name}_YouTube_Client_Secret"`. -/
def client_secret_key (project_name : PyStr) : PyStr :=
  project_name ++ ("_YouTube_Client_Secret".toList)

/-- The filter predicate of lines 32-35: the line starts with
`f"{client_id_key}="` or with `f"{client_secret_key}="`. -/
def isStaleLine (project_name : PyStr) (line : PyStr) : Bool :=
  (client_id_key project_name ++ ['=']).isPrefixOf line
    || (client_secret_key project_name ++ ['=']).isPrefixOf line

/-- The first appended line (line 38): `f"{client_id_key}={client_id}\n"`. -/
def idLine (project_name client_id : PyStr) : PyStr :=
  client_id_key project_name ++ ['='] ++ client_id ++ ['\n']

/-- The second appended line (line 39): `f"{client_secret_key}={client_secret}\n"`. -/
def secretLine (project_name client_secret : PyStr) : PyStr :=
  client_secret_key project_name ++ ['='] ++ client_secret ++ ['\n']

/-- `add_youtube_credentials` (lines 18-43), restricted to its effect on the
store.  `store` is the prior content of `api_keys.txt`, `none` when the file
does not exist (line 27).  The result is the full new content written back at
lines 42-43 (`writelines` concatenates the line list). -/
def add_youtube_credentials (project_name client_id client_secret : PyStr)
    (store : Option PyStr) : PyStr :=
  let lines : List PyStr :=
    match store with
    | none => []
    | some content => splitLines content
  let lines := lines.filter (fun line => !isStaleLine project_name line)
  let lines := lines ++
    [idLine project_name client_id, secretLine project_name client_secret]
  lines.flatten

/-- The four confirmation `print` calls of lines 45-48. -/
def writerOutput (project_name client_id client_secret : PyStr) : List OutLine :=
  [ .text ("✅ YouTube credentials added for project: ".toList ++ project_name),
    .text ("   Client ID: ".toList ++ client_id),
    .text ("   Client Secret: ".toList ++ client_secret.take 10 ++ "...".toList),
    .text ("   Keys added to api_keys.txt: ".toList ++ client_id_key project_name
      ++ ", ".toList ++ client_secret_key project_name) ]

/-- The module docstring printed by `print(__doc__)` at line 52. -/
def writerDoc : PyStr :=
  ("\nYouTube Credentials Helper Script\n\nThis script helps you add YouTube OAuth credentials to your api_keys.txt file\nfor specific projects in your Task Manager app.\n\nUsage:\n    python add_youtube_credentials.py <project_name> <client_id> <client_secret>\n\nExample:\n    python add_youtube_credentials.py \"My Gaming Channel\" \"123456789-abc123.apps.googleusercontent.com\" \"GOCSPX-secret123\"\n").toList

/-- `main` of `add_youtube_credentials.py` (lines 50-63): given `sys.argv`
(program name included) and the prior store, returns the exit code, the store
afterwards, and standard output.  The `try/except` around the call only
catches file-system failures, which the pure model cannot exhibit. -/
def writer_main (argv : List PyStr) (store : Option PyStr) :
    Nat × Option PyStr × List OutLine :=
  if argv.length ≠ 4 then (1, store, [.text writerDoc])
  else
    let project_name := (argv.drop 1).headD []
    let client_id := (argv.drop 2).headD []
    let client_secret := (argv.drop 3).headD []
    (0, some (add_youtube_credentials project_name client_id client_secret store),
      writerOutput project_name client_id client_secret)

/-! ## Credential Extractor: `extract_credentials.py` -/

/-- A parsed JSON document, as produced by `json.load`.  Numbers are modelled
as integers (no claim involves fractional values).  Object entries are the
parsed dict's entries; `json.load` keeps the last of duplicate keys, so the
entry keys of a parsed document are pairwise distinct. -/
inductive Json where
  | null
  | bool (b : Bool)
  | num (n : Int)
  | str (s : PyStr)
  | arr (elems : List Json)
  | obj (entries : List (PyStr × Json))

/-- Python `==` between a `str` and a JSON-decoded value: equal exactly when
the value is the same string. -/
def strEqJson (k : PyStr) : Json → Bool
  | .str s => k == s
  | _ => false

/-- Python dict lookup `d.get(k)` / `d[k]` on the parsed entries: the entry
for `k`, if any (keys are distinct, so first match is the match). -/
def dictGet (entries : List (PyStr × Json)) (k : PyStr) : Option Json :=
  (entries.find? (fun e => e.1 == k)).map (fun e => e.2)

/-- Python `k in s` for strings: substring containment. -/
def pyStrIn (k : PyStr) : PyStr → Bool
  | [] => k.isEmpty
  | c :: t => k.isPrefixOf (c :: t) || pyStrIn k t

/-- Python `k in data` for a string `k`: key membership for a dict, element
equality for a list, substring test for a string, and a `TypeError`
(modelled as `.error ()`) for every other value. -/
def pyContains (data : Json) (k : PyStr) : Except Unit Bool :=
  match data with
  | .obj entries => .ok (entries.any (fun e => e.1 == k))
  | .arr elems => .ok (elems.any (fun e => strEqJson k e))
  | .str s => .ok (pyStrIn k s)
  | _ => .error ()

/-- Python `data[k]` for a string `k`: the dict entry (a `KeyError`, modelled
as `.error ()`, when absent), and a `TypeError` for every non-dict value. -/
def pySubscript (data : Json) (k : PyStr) : Except Unit Json :=
  match data with
  | .obj entries =>
    match dictGet entries k with
    | some v => .ok v
    | none => .error ()
  | _ => .error ()

/-- Python truthiness of a JSON-decoded value (`if not client_id ...`). -/
def pyTruthy : Json → Bool
  | .null => false
  | .bool b => b
  | .num n => n != 0
  | .str s => !s.isEmpty
  | .arr elems => !elems.isEmpty
  | .obj entries => !entries.isEmpty

/-- The apostrophe character, used by Python `repr` of strings. -/
def quoteChar : Char := Char.ofNat 39

/-- Opening curly brace character. -/
def openBrace : Char := Char.ofNat 123

/-- Closing curly brace character. -/
def closeBrace : Char := Char.ofNat 125

mutual

/-- Python `repr` of a JSON-decoded value (used by `str` for the elements of
containers).  String escaping inside `repr` is not modelled; no claim prints a
container. -/
def pyRepr : Json → PyStr
  | .null => "None".toList
  | .bool true => "True".toList
  | .bool false => "False".toList
  | .num n => (toString n).toList
  | .str s => quoteChar :: s ++ [quoteChar]
  | .arr elems => '[' :: pyReprList elems ++ [']']
  | .obj entries => openBrace :: pyReprEntries entries ++ [closeBrace]

/-- Comma-separated `repr`s of list elements. -/
def pyReprList : List Json → PyStr
  | [] => []
  | [j] => pyRepr j
  | j :: rest => pyRepr j ++ ", ".toList ++ pyReprList rest

/-- Comma-separated `repr key: repr value` pairs of dict entries. -/
def pyReprEntries : List (PyStr × Json) → PyStr
  | [] => []
  | [(k, v)] => quoteChar :: k ++ [quoteChar] ++ ": ".toList ++ pyRepr v
  | (k, v) :: rest => quoteChar :: k ++ [quoteChar] ++ ": ".toList ++ pyRepr v
      ++ ", ".toList ++ pyReprEntries rest

end

/-- Python `str` of a JSON-decoded value, as interpolated by an f-string:
a string is itself, everything else renders as its `repr`. -/
def pyStr : Json → PyStr
  | .str s => s
  | j => pyRepr j

/-- The error message of line 21. -/
def sectionMissingMsg : PyStr :=
  ("❌ Error: Could not find \x27installed\x27 or \x27web\x27 section in JSON file").toList

/-- The error message of line 28. -/
def missingFieldMsg : PyStr :=
  ("❌ Error: Missing client_id or client_secret in JSON file").toList

/-- The error message of line 37. -/
def fileNotFoundMsg (path : PyStr) : PyStr :=
  ("❌ Error: File \x27".toList) ++ path ++ ("\x27 not found".toList)

/-- The error message of line 40. -/
def invalidJsonMsg : PyStr :=
  ("❌ Error: Invalid JSON file").toList

/-- The outcome of opening and `json.load`-ing the file handed to the
Extractor: the file is missing (`FileNotFoundError`), its content is not valid
JSON (`json.JSONDecodeError`), or it parses to a document. -/
inductive FileInput where
  | missing (path : PyStr)
  | invalid
  | parsed (data : Json)

/-- Lines 24-34, once a `credentials` value has been selected: `.get` both
fields (an `AttributeError`, reported by the catch-all handler at lines 42-44,
when `credentials` is not a dict), fail when either is missing or falsy, and
otherwise return the pair. -/
def sectionCreds (credentials : Json) : Option (Json × Json) × List OutLine :=
  match credentials with
  | .obj entries =>
    match dictGet entries ("client_id".toList), dictGet entries ("client_secret".toList) with
    | some ci, some cs =>
      if pyTruthy ci && pyTruthy cs then (some (ci, cs), [])
      else (none, [.text missingFieldMsg])
    | _, _ => (none, [.text missingFieldMsg])
  | _ => (none, [.generic])

/-- `extract_credentials` (lines 9-44): returns the extracted pair (or `none`
on any error) together with the lines the function itself printed.  Every
raised exception lands in one of the `except` clauses of lines 36-44, each of
which prints one line and returns `None`. -/
def extract_credentials (file : FileInput) : Option (Json × Json) × List OutLine :=
  match file with
  | .missing path => (none, [.text (fileNotFoundMsg path)])
  | .invalid => (none, [.text invalidJsonMsg])
  | .parsed data =>
    match pyContains data ("installed".toList) with
    | .error _ => (none, [.generic])
    | .ok true =>
      match pySubscript data ("installed".toList) with
      | .error _ => (none, [.generic])
      | .ok credentials => sectionCreds credentials
    | .ok false =>
      match pyContains data ("web".toList) with
      | .error _ => (none, [.generic])
      | .ok true =>
        match pySubscript data ("web".toList) with
        | .error _ => (none, [.generic])
        | .ok credentials => sectionCreds credentials
      | .ok false => (none, [.text sectionMissingMsg])

/-- The two usage lines printed at lines 48-49. -/
def extractorUsage : List OutLine :=
  [ .text ("Usage: python extract_credentials.py <path_to_json_file>".toList),
    .text ("Example: python extract_credentials.py ~/Downloads/client_secret_123456.json".toList) ]

/-- `main` of `extract_credentials.py` (lines 46-60): exit code and full
standard output. -/
def extractor_main (argv : List PyStr) (file : FileInput) : Nat × List OutLine :=
  if argv.length ≠ 2 then (1, extractorUsage)
  else
    match extract_credentials file with
    | (some (ci, cs), out) =>
      (0, out ++ [.text ("clientId=".toList ++ pyStr ci),
                  .text ("clientSecret=".toList ++ pyStr cs)])
    | (none, out) => (1, out)

/-- Does a printed line carry a credential, i.e. start with `clientId=` or
`clientSecret=`?  The catch-all handler's line starts with an error marker,
never with a credential key. -/
def isCredLine : OutLine → Bool
  | .text s => ("clientId=".toList).isPrefixOf s
      || ("clientSecret=".toList).isPrefixOf s
  | .generic => false

/-- A well-formed stored line: some newline-free text terminated by `'\n'`. -/
def goodLine (l : PyStr) : Prop := ∃ m, '\n' ∉ m ∧ l = m ++ ['\n']

/-- The section of a parsed document that the Extractor's probe order selects:
the `installed` entry when present, otherwise the `web` entry. -/
def selectedSection (data : Json) : Option Json :=
  match data with
  | .obj entries =>
    match dictGet entries ("installed".toList) with
    | some v => some v
    | none => dictGet entries ("web".toList)
  | _ => none

/-- Is a parsed JSON value an object? -/
def Json.isObj : Json → Bool
  | .obj _ => true
  | _ => false

/-! ## Lemmas about `splitLines` -/

theorem splitLines_cons_newline (cs : PyStr) :
    splitLines ('\n' :: cs) = ['\n'] :: splitLines cs := by
  simp [splitLines]

theorem splitLines_cons_of_ne (c : Char) (hc : c ≠ '\n') (cs : PyStr)
    (l : PyStr) (ls : List PyStr) (h : splitLines cs = l :: ls) :
    splitLines (c :: cs) = (c :: l) :: ls := by
  simp only [splitLines, if_neg hc, h]

theorem splitLines_append_cons (m t : PyStr) (hm : '\n' ∉ m) :
    splitLines (m ++ '\n' :: t) = (m ++ ['\n']) :: splitLines t := by
  induction m with
  | nil => simp [splitLines]
  | cons c m ih =>
    have hc : c ≠ '\n' := fun h => hm (h ▸ List.mem_cons_self c m)
    have hm' : '\n' ∉ m := fun h => hm (List.mem_cons_of_mem c h)
    rw [List.cons_append, splitLines_cons_of_ne c hc _ _ _ (ih hm'), List.cons_append]

theorem splitLines_ne_nil (c : Char) (cs : PyStr) : splitLines (c :: cs) ≠ [] := by
  by_cases hc : c = '\n'
  · subst hc; simp [splitLines]
  · simp only [splitLines, if_neg hc]
    cases splitLines cs <;> simp

theorem splitLines_flatten (L : List PyStr) (h : ∀ l ∈ L, goodLine l) :
    splitLines L.flatten = L := by
  induction L with
  | nil => rfl
  | cons l L ih =>
    obtain ⟨m, hm, rfl⟩ := h l (List.mem_cons_self l L)
    have : (m ++ ['\n']) ++ L.flatten = m ++ '\n' :: L.flatten := by simp
    rw [List.flatten_cons, this, splitLines_append_cons m _ hm,
      ih (fun x hx => h x (List.mem_cons_of_mem _ hx))]

theorem splitLines_good (cs : PyStr) (h : cs.getLast? = some '\n') :
    ∀ l ∈ splitLines cs, goodLine l := by
  induction cs with
  | nil => simp [splitLines]
  | cons c cs ih =>
    intro l hl
    cases cs with
    | nil =>
      have hc : c = '\n' := by simpa using h
      subst hc
      simp only [splitLines, if_pos rfl] at hl
      rcases (by simpa using hl : l = ['\n']) with rfl
      exact ⟨[], by simp, rfl⟩
    | cons d ds =>
      have h' : (d :: ds).getLast? = some '\n' := by
        rwa [List.getLast?_cons_cons] at h
      by_cases hc : c = '\n'
      · subst hc
        rw [splitLines_cons_newline, List.mem_cons] at hl
        rcases hl with rfl | hl
        · exact ⟨[], by simp, rfl⟩
        · exact ih h' l hl
      · cases heq : splitLines (d :: ds) with
        | nil => exact absurd heq (splitLines_ne_nil d ds)
        | cons l₀ ls =>
          rw [splitLines_cons_of_ne c hc _ _ _ heq, List.mem_cons] at hl
          rcases hl with rfl | hl
          · obtain ⟨m, hm, rfl⟩ := ih h' l₀ (heq.symm ▸ List.mem_cons_self l₀ ls)
            exact ⟨c :: m, by simp [hm, Ne.symm hc], by simp⟩
          · exact ih h' l (heq.symm ▸ List.mem_cons_of_mem l₀ hl)

/-! ## Lemmas about the Writer -/

theorem terminated_good (prior : PyStr)
    (h : prior = [] ∨ prior.getLast? = some '\n') :
    ∀ l ∈ splitLines prior, goodLine l := by
  rcases h with rfl | h
  · simp [splitLines]
  · exact splitLines_good prior h

theorem goodLine_idLine (p i : PyStr) (hp : '\n' ∉ p) (hi : '\n' ∉ i) :
    goodLine (idLine p i) := by
  refine ⟨client_id_key p ++ ['='] ++ i, ?_, by simp [idLine]⟩
  intro h
  rcases List.mem_append.mp h with h' | h'
  · rcases List.mem_append.mp h' with h'' | h''
    · simp only [client_id_key] at h''
      rcases List.mem_append.mp h'' with h3 | h3
      · exact hp h3
      · revert h3; decide
    · revert h''; decide
  · exact hi h'

theorem goodLine_secretLine (p s : PyStr) (hp : '\n' ∉ p) (hs : '\n' ∉ s) :
    goodLine (secretLine p s) := by
  refine ⟨client_secret_key p ++ ['='] ++ s, ?_, by simp [secretLine]⟩
  intro h
  rcases List.mem_append.mp h with h' | h'
  · rcases List.mem_append.mp h' with h'' | h''
    · simp only [client_secret_key] at h''
      rcases List.mem_append.mp h'' with h3 | h3
      · exact hp h3
      · revert h3; decide
    · revert h''; decide
  · exact hs h'

theorem not_pre_of_ne_at (a b r : PyStr) (n : Nat) (ha : n < a.length)
    (hb : n < b.length) (hne : a.get ⟨n, ha⟩ ≠ b.get ⟨n, hb⟩) : ¬ a <+: b ++ r := by
  intro hpre
  have hb' : n < (b ++ r).length := by
    simp only [List.length_append]; omega
  have h1 : a.get ⟨n, ha⟩ = (b ++ r).get ⟨n, hb'⟩ := by
    simpa [List.get_eq_getElem] using hpre.getElem ha
  have h2 : (b ++ r).get ⟨n, hb'⟩ = b.get ⟨n, hb⟩ := by
    simp [List.get_eq_getElem, List.getElem_append_left hb]
  exact hne (h1.trans h2)

theorem id_key_not_pre_secretLine (p s : PyStr) :
    (client_id_key p ++ ['=']).isPrefixOf (secretLine p s) = false := by
  rw [Bool.eq_false_iff]
  intro hb
  rw [ List.isPrefixOf_iff_prefix] at hb
  simp only [client_id_key, client_secret_key, secretLine, List.append_assoc,
    List.prefix_append_right_inj] at hb
  exact not_pre_of_ne_at _ _ _ 16 (by decide) (by decide) (by decide) hb

theorem secret_key_not_pre_idLine (p i : PyStr) :
    (client_secret_key p ++ ['=']).isPrefixOf (idLine p i) = false := by
  rw [Bool.eq_false_iff]
  intro hb
  rw [ List.isPrefixOf_iff_prefix] at hb
  simp only [client_id_key, client_secret_key, idLine, List.append_assoc,
    List.prefix_append_right_inj] at hb
  exact not_pre_of_ne_at _ _ _ 16 (by decide) (by decide) (by decide) hb

theorem id_key_pre_idLine (p i : PyStr) :
    (client_id_key p ++ ['=']).isPrefixOf (idLine p i) = true := by
  rw [ List.isPrefixOf_iff_prefix, idLine]
  simp [List.append_assoc]

theorem secret_key_pre_secretLine (p s : PyStr) :
    (client_secret_key p ++ ['=']).isPrefixOf (secretLine p s) = true := by
  rw [ List.isPrefixOf_iff_prefix, secretLine]
  simp [List.append_assoc]

theorem add_splitLines (p i s : PyStr) (prior : PyStr)
    (hgood : ∀ l ∈ splitLines prior, goodLine l)
    (hp : '\n' ∉ p) (hi : '\n' ∉ i) (hs : '\n' ∉ s) :
    splitLines (add_youtube_credentials p i s (some prior)) =
      (splitLines prior).filter (fun l => !isStaleLine p l)
        ++ [idLine p i, secretLine p s] := by
  simp only [add_youtube_credentials]
  apply splitLines_flatten
  intro l hl
  rcases List.mem_append.mp hl with h | h
  · exact hgood l (List.mem_of_mem_filter h)
  · rcases h with _ | ⟨_, (_ | ⟨_, h⟩)⟩
    · exact goodLine_idLine p i hp hi
    · exact goodLine_secretLine p s hp hs
    · exact absurd h (List.not_mem_nil l)

theorem add_countP_id (p i s prior : PyStr)
    (hgood : ∀ l ∈ splitLines prior, goodLine l)
    (hp : '\n' ∉ p) (hi : '\n' ∉ i) (hs : '\n' ∉ s) :
    (splitLines (add_youtube_credentials p i s (some prior))).countP
      (fun l => (client_id_key p ++ ['=']).isPrefixOf l) = 1 := by
  rw [add_splitLines p i s prior hgood hp hi hs, List.countP_append]
  have h0 : ((splitLines prior).filter (fun l => !isStaleLine p l)).countP
      (fun l => (client_id_key p ++ ['=']).isPrefixOf l) = 0 := by
    rw [List.countP_eq_zero]
    intro l hl
    have hstale : isStaleLine p l = false := by
      have := (List.mem_filter.mp hl).2
      simpa using this
    have := (Bool.or_eq_false_iff.mp (by simpa [isStaleLine] using hstale)).1
    simp [this]
  rw [h0]
  simp [List.countP_cons, id_key_pre_idLine, id_key_not_pre_secretLine]

theorem add_countP_secret (p i s prior : PyStr)
    (hgood : ∀ l ∈ splitLines prior, goodLine l)
    (hp : '\n' ∉ p) (hi : '\n' ∉ i) (hs : '\n' ∉ s) :
    (splitLines (add_youtube_credentials p i s (some prior))).countP
      (fun l => (client_secret_key p ++ ['=']).isPrefixOf l) = 1 := by
  rw [add_splitLines p i s prior hgood hp hi hs, List.countP_append]
  have h0 : ((splitLines prior).filter (fun l => !isStaleLine p l)).countP
      (fun l => (client_secret_key p ++ ['=']).isPrefixOf l) = 0 := by
    rw [List.countP_eq_zero]
    intro l hl
    have hstale : isStaleLine p l = false := by
      have := (List.mem_filter.mp hl).2
      simpa using this
    have := (Bool.or_eq_false_iff.mp (by simpa [isStaleLine] using hstale)).2
    simp [this]
  rw [h0]
  simp [List.countP_cons, secret_key_pre_secretLine, secret_key_not_pre_idLine]

theorem getLast?_flatten_concat (F : List PyStr) (x m : PyStr) :
    ((F ++ [x, m ++ ['\n']]).flatten).getLast? = some '\n' := by
  have h : (F ++ [x, m ++ ['\n']]).flatten = (F.flatten ++ x ++ m) ++ ['\n'] := by
    simp
  rw [h, List.getLast?_concat]

theorem add_getLast (p i s : PyStr) (store : Option PyStr) :
    (add_youtube_credentials p i s store).getLast? = some '\n' := by
  simp only [add_youtube_credentials, secretLine]
  exact getLast?_flatten_concat _ _ _

/-! ## Writer claims -/

/-- C1 (amended): for every prior store content that is empty or
newline-terminated and every newline-free `(project, id, secret)` triple,
after the Writer completes the store's lines are exactly the prior lines not
starting with either derived key followed by `=` — kept in content and
relative position — followed by the two fresh key lines; in particular the
store holds exactly one line starting with each derived key followed by `=`,
with the most recently supplied values. -/
theorem writer_upsert_store_invariant (p i s prior : PyStr)
    (hp : '\n' ∉ p) (hi : '\n' ∉ i) (hs : '\n' ∉ s)
    (hterm : prior = [] ∨ prior.getLast? = some '\n') :
    splitLines (add_youtube_credentials p i s (some prior)) =
      (splitLines prior).filter (fun l => !isStaleLine p l)
        ++ [idLine p i, secretLine p s]
    ∧ (splitLines (add_youtube_credentials p i s (some prior))).countP
        (fun l => (client_id_key p ++ ['=']).isPrefixOf l) = 1
    ∧ (splitLines (add_youtube_credentials p i s (some prior))).countP
        (fun l => (client_secret_key p ++ ['=']).isPrefixOf l) = 1 :=
  ⟨add_splitLines p i s prior (terminated_good prior hterm) hp hi hs,
   add_countP_id p i s prior (terminated_good prior hterm) hp hi hs,
   add_countP_secret p i s prior (terminated_good prior hterm) hp hi hs⟩

/-- Witness for C1 at a concrete store holding one line of another project. -/
theorem writer_upsert_store_invariant_witness :
    splitLines (add_youtube_credentials ("p".toList) ("x".toList) ("y".toList)
        (some ("A_YouTube_Client_ID=q\n".toList))) =
      (splitLines ("A_YouTube_Client_ID=q\n".toList)).filter
          (fun l => !isStaleLine ("p".toList) l)
        ++ [idLine ("p".toList) ("x".toList), secretLine ("p".toList) ("y".toList)]
    ∧ (splitLines (add_youtube_credentials ("p".toList) ("x".toList) ("y".toList)
        (some ("A_YouTube_Client_ID=q\n".toList)))).countP
        (fun l => (client_id_key ("p".toList) ++ ['=']).isPrefixOf l) = 1
    ∧ (splitLines (add_youtube_credentials ("p".toList) ("x".toList) ("y".toList)
        (some ("A_YouTube_Client_ID=q\n".toList)))).countP
        (fun l => (client_secret_key ("p".toList) ++ ['=']).isPrefixOf l) = 1 :=
  writer_upsert_store_invariant ("p".toList) ("x".toList) ("y".toList)
    ("A_YouTube_Client_ID=q\n".toList)
    (by decide) (by decide) (by decide) (Or.inr (by decide))

/-- C1 counterexample: when the prior store content does not end with a
newline (here `"abc"`), `writelines` merges the final prior line with the
first appended key line, so the store afterwards holds no line starting with
the derived id key followed by `=` — the claimed count of exactly one fails,
and the unrelated line `"abc"` does not keep its content. -/
theorem writer_upsert_unterminated_cex :
    ¬ ((splitLines (add_youtube_credentials ("p".toList) ("x".toList) ("y".toList)
        (some ("abc".toList)))).countP
        (fun l => (client_id_key ("p".toList) ++ ['=']).isPrefixOf l) = 1) := by
  decide

/-- C2 (amended): for every newline-free `(project, id, secret)` triple, one
run against an empty or absent store writes exactly the two newline-terminated
lines `{project}_YouTube_Client_ID={id}` then
`{project}_YouTube_Client_Secret={secret}`. -/
theorem writer_fresh_store_two_lines (p i s : PyStr)
    (hp : '\n' ∉ p) (hi : '\n' ∉ i) (hs : '\n' ∉ s)
    (store : Option PyStr) (hstore : store = none ∨ store = some []) :
    add_youtube_credentials p i s store = idLine p i ++ secretLine p s
    ∧ splitLines (add_youtube_credentials p i s store) =
        [idLine p i, secretLine p s] := by
  have hc : add_youtube_credentials p i s store = idLine p i ++ secretLine p s := by
    rcases hstore with rfl | rfl <;> simp [add_youtube_credentials, splitLines]
  refine ⟨hc, ?_⟩
  have hc2 : add_youtube_credentials p i s store =
      [idLine p i, secretLine p s].flatten := by
    rw [hc]; simp
  rw [hc2]
  apply splitLines_flatten
  intro l hl
  rcases hl with _ | ⟨_, (_ | ⟨_, h⟩)⟩
  · exact goodLine_idLine p i hp hi
  · exact goodLine_secretLine p s hp hs
  · exact absurd h (List.not_mem_nil l)

/-- Witness for C2 at a concrete triple and an absent store. -/
theorem writer_fresh_store_two_lines_witness :
    add_youtube_credentials ("p".toList) ("x".toList) ("y".toList) none =
      idLine ("p".toList) ("x".toList) ++ secretLine ("p".toList) ("y".toList)
    ∧ splitLines (add_youtube_credentials ("p".toList) ("x".toList) ("y".toList) none) =
        [idLine ("p".toList) ("x".toList), secretLine ("p".toList) ("y".toList)] :=
  writer_fresh_store_two_lines ("p".toList) ("x".toList) ("y".toList)
    (by decide) (by decide) (by decide) none (Or.inl rfl)

/-- C2 counterexample: a client id containing a newline (`"a\nb"`) makes the
store written from empty consist of three lines, not two. -/
theorem writer_fresh_store_newline_value_cex :
    (splitLines (add_youtube_credentials ("p".toList) ("a\nb".toList)
        ("s".toList) none)).length ≠ 2 := by
  decide

/-- C3 (amended): for every project name and second-invocation values that are
newline-free, running the Writer twice with the same project (from any prior
store, with any first-invocation values) leaves exactly one line for each of
the project's two derived keys, holding the second invocation's values. -/
theorem writer_twice_last_wins (p i1 s1 i2 s2 : PyStr) (store : Option PyStr)
    (hp : '\n' ∉ p) (hi : '\n' ∉ i2) (hs : '\n' ∉ s2) :
    (splitLines (add_youtube_credentials p i2 s2
        (some (add_youtube_credentials p i1 s1 store)))).countP
      (fun l => (client_id_key p ++ ['=']).isPrefixOf l) = 1
    ∧ (splitLines (add_youtube_credentials p i2 s2
        (some (add_youtube_credentials p i1 s1 store)))).countP
      (fun l => (client_secret_key p ++ ['=']).isPrefixOf l) = 1
    ∧ idLine p i2 ∈ splitLines (add_youtube_credentials p i2 s2
        (some (add_youtube_credentials p i1 s1 store)))
    ∧ secretLine p s2 ∈ splitLines (add_youtube_credentials p i2 s2
        (some (add_youtube_credentials p i1 s1 store))) := by
  have hgood : ∀ l ∈ splitLines (add_youtube_credentials p i1 s1 store), goodLine l :=
    splitLines_good _ (add_getLast p i1 s1 store)
  refine ⟨add_countP_id p i2 s2 _ hgood hp hi hs,
    add_countP_secret p i2 s2 _ hgood hp hi hs, ?_, ?_⟩
  · rw [add_splitLines p i2 s2 _ hgood hp hi hs]; simp
  · rw [add_splitLines p i2 s2 _ hgood hp hi hs]; simp

/-- Witness for C3 at concrete inputs: two runs for project `p`, the second
with different values. -/
theorem writer_twice_last_wins_witness :
    (splitLines (add_youtube_credentials ("p".toList) ("c".toList) ("d".toList)
        (some (add_youtube_credentials ("p".toList) ("a".toList) ("b".toList) none)))).countP
      (fun l => (client_id_key ("p".toList) ++ ['=']).isPrefixOf l) = 1
    ∧ (splitLines (add_youtube_credentials ("p".toList) ("c".toList) ("d".toList)
        (some (add_youtube_credentials ("p".toList) ("a".toList) ("b".toList) none)))).countP
      (fun l => (client_secret_key ("p".toList) ++ ['=']).isPrefixOf l) = 1
    ∧ idLine ("p".toList) ("c".toList) ∈ splitLines (add_youtube_credentials ("p".toList)
        ("c".toList) ("d".toList)
        (some (add_youtube_credentials ("p".toList) ("a".toList) ("b".toList) none)))
    ∧ secretLine ("p".toList) ("d".toList) ∈ splitLines (add_youtube_credentials ("p".toList)
        ("c".toList) ("d".toList)
        (some (add_youtube_credentials ("p".toList) ("a".toList) ("b".toList) none))) :=
  writer_twice_last_wins ("p".toList) ("a".toList) ("b".toList) ("c".toList)
    ("d".toList) none (by decide) (by decide) (by decide)

/-- C3 counterexample: a second-invocation secret containing a newline and a
forged key line (`"s\np_YouTube_Client_ID=evil"`) leaves two store lines
starting with the derived id key followed by `=`, not one. -/
theorem writer_twice_injected_duplicate_cex :
    (splitLines (add_youtube_credentials ("p".toList) ("c".toList)
        ("s\np_YouTube_Client_ID=evil".toList)
        (some (add_youtube_credentials ("p".toList) ("a".toList) ("b".toList)
          none)))).countP
      (fun l => (client_id_key ("p".toList) ++ ['=']).isPrefixOf l) ≠ 1 := by
  decide

/-- C4 (amended): for a newline-terminated (or empty) prior store and
newline-free Writer inputs for project B, the Writer removes exactly the prior
lines starting with one of B's two derived keys followed by `=`; every other
prior line — in particular every line of a different project A that does not
itself start with one of B's derived keys followed by `=` — is kept with its
content and relative position. -/
theorem writer_isolation_frame (pB i s prior : PyStr)
    (hp : '\n' ∉ pB) (hi : '\n' ∉ i) (hs : '\n' ∉ s)
    (hterm : prior = [] ∨ prior.getLast? = some '\n') :
    splitLines (add_youtube_credentials pB i s (some prior)) =
      (splitLines prior).filter (fun l => !isStaleLine pB l)
        ++ [idLine pB i, secretLine pB s]
    ∧ ∀ l ∈ splitLines prior, isStaleLine pB l = false →
        l ∈ splitLines (add_youtube_credentials pB i s (some prior)) := by
  have h := add_splitLines pB i s prior (terminated_good prior hterm) hp hi hs
  refine ⟨h, fun l hl hstale => ?_⟩
  rw [h]
  exact List.mem_append_left _ (List.mem_filter.mpr ⟨hl, by simp [hstale]⟩)

/-- Witness for C4: the Writer for project `B` keeps project `A`'s line. -/
theorem writer_isolation_frame_witness :
    splitLines (add_youtube_credentials ("B".toList) ("i".toList) ("s".toList)
        (some ("A_YouTube_Client_ID=q\n".toList))) =
      (splitLines ("A_YouTube_Client_ID=q\n".toList)).filter
          (fun l => !isStaleLine ("B".toList) l)
        ++ [idLine ("B".toList) ("i".toList), secretLine ("B".toList) ("s".toList)]
    ∧ ∀ l ∈ splitLines ("A_YouTube_Client_ID=q\n".toList),
        isStaleLine ("B".toList) l = false →
        l ∈ splitLines (add_youtube_credentials ("B".toList) ("i".toList)
          ("s".toList) (some ("A_YouTube_Client_ID=q\n".toList))) :=
  writer_isolation_frame ("B".toList) ("i".toList) ("s".toList)
    ("A_YouTube_Client_ID=q\n".toList)
    (by decide) (by decide) (by decide) (Or.inr (by decide))

/-- C4 counterexample: a project named `P_YouTube_Client_ID=x` (different from
project `P`) stores a line that itself begins with P's derived id key followed
by `=`; running the Writer for project `P` removes that other project's line. -/
theorem writer_isolation_nested_project_cex :
    (client_id_key ("P_YouTube_Client_ID=x".toList) ++ ['='] ++ "v".toList ++ ['\n'])
        ∈ splitLines ("P_YouTube_Client_ID=x_YouTube_Client_ID=v\n".toList)
    ∧ "P_YouTube_Client_ID=x".toList ≠ "P".toList
    ∧ (client_id_key ("P_YouTube_Client_ID=x".toList) ++ ['='] ++ "v".toList ++ ['\n'])
        ∉ splitLines (add_youtube_credentials ("P".toList) ("i".toList) ("s".toList)
            (some ("P_YouTube_Client_ID=x_YouTube_Client_ID=v\n".toList))) := by
  decide

/-- C8: the Writer's confirmation output contains the project name, the full
client id and the secret only as its first 10 characters followed by an
ellipsis; consequently two runs whose secrets agree on their first 10
characters print identical standard output. -/
theorem writer_secret_truncation (p i s1 s2 : PyStr)
    (h : s1.take 10 = s2.take 10) :
    writerOutput p i s1 = writerOutput p i s2
    ∧ OutLine.text ("✅ YouTube credentials added for project: ".toList ++ p)
        ∈ writerOutput p i s1
    ∧ OutLine.text ("   Client ID: ".toList ++ i) ∈ writerOutput p i s1
    ∧ OutLine.text ("   Client Secret: ".toList ++ s1.take 10 ++ "...".toList)
        ∈ writerOutput p i s1 := by
  refine ⟨by simp [writerOutput, h], ?_, ?_, ?_⟩ <;> simp [writerOutput]

/-- Witness for C8: two secrets sharing their first 10 characters. -/
theorem writer_secret_truncation_witness :
    writerOutput ("p".toList) ("x".toList) ("0123456789AAAA".toList) =
      writerOutput ("p".toList) ("x".toList) ("0123456789BBBB".toList)
    ∧ OutLine.text ("✅ YouTube credentials added for project: ".toList ++ "p".toList)
        ∈ writerOutput ("p".toList) ("x".toList) ("0123456789AAAA".toList)
    ∧ OutLine.text ("   Client ID: ".toList ++ "x".toList)
        ∈ writerOutput ("p".toList) ("x".toList) ("0123456789AAAA".toList)
    ∧ OutLine.text ("   Client Secret: ".toList ++ "0123456789AAAA".toList.take 10
          ++ "...".toList)
        ∈ writerOutput ("p".toList) ("x".toList) ("0123456789AAAA".toList) :=
  writer_secret_truncation ("p".toList) ("x".toList) ("0123456789AAAA".toList)
    ("0123456789BBBB".toList) (by decide)

/-- C9: invoked with an argument count other than three positional arguments
(`len(sys.argv) != 4`), the Writer prints the usage documentation, exits with
status 1, and leaves the store exactly as it was. -/
theorem writer_usage_guard (argv : List PyStr) (store : Option PyStr)
    (h : argv.length ≠ 4) :
    writer_main argv store = (1, store, [.text writerDoc]) := by
  simp [writer_main, h]

/-- Witness for C9: two positional arguments (argv length 3). -/
theorem writer_usage_guard_witness :
    writer_main [("prog".toList), ("p".toList), ("x".toList)]
        (some ("k=v\n".toList)) =
      (1, some ("k=v\n".toList), [.text writerDoc]) :=
  writer_usage_guard [("prog".toList), ("p".toList), ("x".toList)]
    (some ("k=v\n".toList)) (by decide)

/-! ## Lemmas about the Extractor -/

theorem pyTruthy_str_of_ne (x : PyStr) (hx : x ≠ []) : pyTruthy (.str x) = true := by
  cases x with
  | nil => exact absurd rfl hx
  | cons c cs => rfl

theorem isCredLine_err (r : PyStr) : isCredLine (.text ('❌' :: r)) = false := by
  simp only [isCredLine]
  rw [Bool.or_eq_false_iff]
  constructor <;>
  · rw [Bool.eq_false_iff]
    intro hb
    rw [ List.isPrefixOf_iff_prefix] at hb
    exact not_pre_of_ne_at _ ['❌'] r 0 (by decide) (by decide) (by decide) hb

theorem isCredLine_fileNotFound (path : PyStr) :
    isCredLine (.text (fileNotFoundMsg path)) = false :=
  isCredLine_err _

theorem any_key_of_dictGet_some (entries : List (PyStr × Json)) (k : PyStr) (v : Json)
    (h : dictGet entries k = some v) :
    entries.any (fun e => e.1 == k) = true := by
  simp only [dictGet, Option.map_eq_some'] at h
  obtain ⟨e, he, _⟩ := h
  exact List.any_eq_true.mpr
    ⟨e, List.mem_of_find?_eq_some he, by simpa using List.find?_some he⟩

theorem any_key_of_dictGet_none (entries : List (PyStr × Json)) (k : PyStr)
    (h : dictGet entries k = none) :
    entries.any (fun e => e.1 == k) = false := by
  simp only [dictGet, Option.map_eq_none'] at h
  rw [List.find?_eq_none] at h
  rw [Bool.eq_false_iff]
  intro hb
  obtain ⟨e, he, hp⟩ := List.any_eq_true.mp hb
  exact absurd hp (h e he)

theorem extract_obj_installed (entries : List (PyStr × Json)) (v : Json)
    (hI : dictGet entries ("installed".toList) = some v) :
    extract_credentials (.parsed (.obj entries)) = sectionCreds v := by
  have hany := any_key_of_dictGet_some entries _ v hI
  simp only [extract_credentials, pyContains, pySubscript, hany, hI]

theorem extract_obj_web (entries : List (PyStr × Json)) (v : Json)
    (hI : dictGet entries ("installed".toList) = none)
    (hW : dictGet entries ("web".toList) = some v) :
    extract_credentials (.parsed (.obj entries)) = sectionCreds v := by
  have hanyI := any_key_of_dictGet_none entries _ hI
  have hanyW := any_key_of_dictGet_some entries _ v hW
  simp only [extract_credentials, pyContains, pySubscript, hanyI, hanyW, hW]

theorem sectionCreds_not_obj (v : Json) (hv : v.isObj = false) :
    sectionCreds v = (none, [.generic]) := by
  cases v with
  | obj entries => simp [Json.isObj] at hv
  | null => rfl
  | bool b => rfl
  | num n => rfl
  | str s => rfl
  | arr elems => rfl

theorem extract_error_lines (file : FileInput)
    (hfail : (extract_credentials file).1 = none) :
    ∃ l, (extract_credentials file).2 = [l] ∧ isCredLine l = false := by
  rcases file with path | _ | data
  · exact ⟨.text (fileNotFoundMsg path), rfl, isCredLine_fileNotFound path⟩
  · exact ⟨.text invalidJsonMsg, rfl, by decide⟩
  · have hsec : ∀ c : Json, (sectionCreds c).1 = none →
        ∃ l, (sectionCreds c).2 = [l] ∧ isCredLine l = false := by
      intro c hc
      cases c with
      | obj entries =>
        simp only [sectionCreds] at hc ⊢
        rcases h1 : dictGet entries ("client_id".toList) with _ | ci <;>
          rcases h2 : dictGet entries ("client_secret".toList) with _ | cs <;>
            simp only [h1, h2] at hc ⊢
        · exact ⟨.text missingFieldMsg, rfl, by decide⟩
        · exact ⟨.text missingFieldMsg, rfl, by decide⟩
        · exact ⟨.text missingFieldMsg, rfl, by decide⟩
        · cases htr : (pyTruthy ci && pyTruthy cs) <;> simp only [htr] at hc ⊢
          · exact ⟨.text missingFieldMsg, rfl, by decide⟩
          · simp at hc
      | null => exact ⟨.generic, rfl, rfl⟩
      | bool b => exact ⟨.generic, rfl, rfl⟩
      | num n => exact ⟨.generic, rfl, rfl⟩
      | str s => exact ⟨.generic, rfl, rfl⟩
      | arr elems => exact ⟨.generic, rfl, rfl⟩
    rcases hc : pyContains data ("installed".toList) with e | b
    · exact ⟨.generic, by simp only [extract_credentials, hc], rfl⟩
    · cases b with
      | true =>
        rcases hsub : pySubscript data ("installed".toList) with e | c
        · exact ⟨.generic, by simp only [extract_credentials, hc, hsub], rfl⟩
        · have hred : extract_credentials (.parsed data) = sectionCreds c := by
            simp only [extract_credentials, hc, hsub]
          rw [hred] at hfail ⊢
          exact hsec c hfail
      | false =>
        rcases hc2 : pyContains data ("web".toList) with e | b2
        · exact ⟨.generic, by simp only [extract_credentials, hc, hc2], rfl⟩
        · cases b2 with
          | true =>
            rcases hsub : pySubscript data ("web".toList) with e | c
            · exact ⟨.generic, by simp only [extract_credentials, hc, hc2, hsub], rfl⟩
            · have hred : extract_credentials (.parsed data) = sectionCreds c := by
                simp only [extract_credentials, hc, hc2, hsub]
              rw [hred] at hfail ⊢
              exact hsec c hfail
          | false =>
            exact ⟨.text sectionMissingMsg,
              by simp only [extract_credentials, hc, hc2], by decide⟩

theorem extractor_main_failure (argv : List PyStr) (file : FileInput)
    (ha : argv.length = 2) (hfail : (extract_credentials file).1 = none) :
    extractor_main argv file = (1, (extract_credentials file).2) := by
  rcases hE : extract_credentials file with ⟨o, out⟩
  rw [hE] at hfail
  cases o with
  | some c => simp at hfail
  | none => simp [extractor_main, ha, hE]

/-! ## Extractor claims -/

/-- C5 (amended): for every pair of nonempty strings `X`, `Y`, the Extractor
run on `{"installed": {"client_id": X, "client_secret": Y}}` exits 0 and
prints exactly the two lines `clientId=X` then `clientSecret=Y`; the same
document under `"web"` produces identical output. -/
theorem extractor_round_trip (x y : PyStr) (hx : x ≠ []) (hy : y ≠ [])
    (argv : List PyStr) (ha : argv.length = 2) :
    extractor_main argv (.parsed (.obj [("installed".toList,
        .obj [("client_id".toList, .str x), ("client_secret".toList, .str y)])])) =
      (0, [.text ("clientId=".toList ++ x), .text ("clientSecret=".toList ++ y)])
    ∧ extractor_main argv (.parsed (.obj [("web".toList,
        .obj [("client_id".toList, .str x), ("client_secret".toList, .str y)])])) =
      (0, [.text ("clientId=".toList ++ x), .text ("clientSecret=".toList ++ y)]) := by
  obtain ⟨c, cs, rfl⟩ := List.exists_cons_of_ne_nil hx
  obtain ⟨d, ds, rfl⟩ := List.exists_cons_of_ne_nil hy
  constructor <;>
  · simp only [extractor_main, ha]
    rfl

/-- Witness for C5 at `X = "a"`, `Y = "b"`. -/
theorem extractor_round_trip_witness :
    extractor_main [("prog".toList), ("f.json".toList)] (.parsed (.obj [("installed".toList,
        .obj [("client_id".toList, .str ("a".toList)),
              ("client_secret".toList, .str ("b".toList))])])) =
      (0, [.text ("clientId=".toList ++ "a".toList),
           .text ("clientSecret=".toList ++ "b".toList)])
    ∧ extractor_main [("prog".toList), ("f.json".toList)] (.parsed (.obj [("web".toList,
        .obj [("client_id".toList, .str ("a".toList)),
              ("client_secret".toList, .str ("b".toList))])])) =
      (0, [.text ("clientId=".toList ++ "a".toList),
           .text ("clientSecret=".toList ++ "b".toList)]) :=
  extractor_round_trip ("a".toList) ("b".toList) (by decide) (by decide)
    [("prog".toList), ("f.json".toList)] (by decide)

/-- C5 counterexample: at the pair of empty strings `X = Y = ""` the code
takes the falsy-field error path — exit status 1 with an error message — so
the claim quantified over every pair of strings fails. -/
theorem extractor_empty_fields_cex :
    extractor_main [("prog".toList), ("f.json".toList)] (.parsed (.obj [("installed".toList,
        .obj [("client_id".toList, .str []), ("client_secret".toList, .str [])])])) =
      (1, [.text missingFieldMsg])
    ∧ ¬ (extractor_main [("prog".toList), ("f.json".toList)] (.parsed (.obj
        [("installed".toList, .obj [("client_id".toList, .str []),
          ("client_secret".toList, .str [])])])) =
      (0, [.text ("clientId=".toList ++ []), .text ("clientSecret=".toList ++ [])])) := by
  refine ⟨rfl, ?_⟩
  decide

/-- C6: when a parsed document has both an `installed` entry and a `web`
entry, the Extractor takes its credentials from the `installed` object: the
probe order is `installed` first. -/
theorem extractor_installed_priority (entries : List (PyStr × Json)) (vI vW : Json)
    (hI : dictGet entries ("installed".toList) = some vI)
    (_hW : dictGet entries ("web".toList) = some vW) :
    extract_credentials (.parsed (.obj entries)) = sectionCreds vI :=
  extract_obj_installed entries vI hI

/-- Witness for C6: a document listing `web` before `installed` still yields
the `installed` object's credentials. -/
theorem extractor_installed_priority_witness :
    extract_credentials (.parsed (.obj
      [("web".toList, .obj [("client_id".toList, .str ("w".toList)),
          ("client_secret".toList, .str ("ws".toList))]),
       ("installed".toList, .obj [("client_id".toList, .str ("a".toList)),
          ("client_secret".toList, .str ("b".toList))])])) =
      sectionCreds (.obj [("client_id".toList, .str ("a".toList)),
          ("client_secret".toList, .str ("b".toList))]) :=
  extractor_installed_priority _ _
    (.obj [("client_id".toList, .str ("w".toList)),
           ("client_secret".toList, .str ("ws".toList))])
    rfl rfl

/-- C7 (amended): every failing Extractor run (missing file, invalid JSON, no
recognized section, missing or empty field, shape error) exits with status 1
and prints no `clientId=`/`clientSecret=` line; the descriptive error message
is, however, printed by `print(...)` to standard output — standard output on
failure is non-empty. -/
theorem extractor_failure_output (argv : List PyStr) (file : FileInput)
    (ha : argv.length = 2) (hfail : (extract_credentials file).1 = none) :
    (extractor_main argv file).1 = 1
    ∧ (extractor_main argv file).2 ≠ []
    ∧ ∀ l ∈ (extractor_main argv file).2, isCredLine l = false := by
  obtain ⟨l, hout, hcred⟩ := extract_error_lines file hfail
  rw [extractor_main_failure argv file ha hfail]
  refine ⟨rfl, ?_, ?_⟩
  · rw [hout]; simp
  · intro x hx
    rw [hout] at hx
    simp only [List.mem_singleton] at hx
    subst hx
    exact hcred

/-- Witness for C7 at a concrete failing run (the file does not exist). -/
theorem extractor_failure_output_witness :
    (extractor_main [("prog".toList), ("f.json".toList)]
        (.missing ("f.json".toList))).1 = 1
    ∧ (extractor_main [("prog".toList), ("f.json".toList)]
        (.missing ("f.json".toList))).2 ≠ []
    ∧ ∀ l ∈ (extractor_main [("prog".toList), ("f.json".toList)]
        (.missing ("f.json".toList))).2, isCredLine l = false :=
  extractor_failure_output [("prog".toList), ("f.json".toList)]
    (.missing ("f.json".toList)) (by decide) rfl

/-- C7 counterexample: on a document with neither `installed` nor `web` the
process exits 1 but its standard output is the error line — not empty — since
`extract_credentials` reports errors with `print`, which writes to the
standard-output stream. -/
theorem extractor_failure_prints_cex :
    extractor_main [("prog".toList), ("f.json".toList)] (.parsed (.obj [])) =
      (1, [.text sectionMissingMsg])
    ∧ [OutLine.text sectionMissingMsg] ≠ ([] : List OutLine) := by
  constructor
  · rfl
  · simp

/-- C10: a document whose top level is not an object, or whose probed
`installed`/`web` entry is not an object, drives the Extractor into an error
path handled by the catch-all `except` clause: exit status 1 and no
`clientId=`/`clientSecret=` line printed. -/
theorem extractor_shape_error_handling (argv : List PyStr) (data : Json)
    (ha : argv.length = 2)
    (h : data.isObj = false ∨ ∃ v, selectedSection data = some v ∧ v.isObj = false) :
    (extractor_main argv (.parsed data)).1 = 1
    ∧ ∀ l ∈ (extractor_main argv (.parsed data)).2, isCredLine l = false := by
  have hfail : (extract_credentials (.parsed data)).1 = none := by
    rcases h with h | ⟨v, hsel, hv⟩
    · cases data with
      | null => rfl
      | bool b => rfl
      | num n => rfl
      | str s =>
        simp only [extract_credentials, pyContains]
        cases pyStrIn ("installed".toList) s
        · cases pyStrIn ("web".toList) s
          · rfl
          · rfl
        · rfl
      | arr elems =>
        simp only [extract_credentials, pyContains]
        cases elems.any (fun e => strEqJson ("installed".toList) e)
        · cases elems.any (fun e => strEqJson ("web".toList) e)
          · rfl
          · rfl
        · rfl
      | obj entries => simp [Json.isObj] at h
    · cases data with
      | obj entries =>
        rcases hI : dictGet entries ("installed".toList) with _ | vI
        · have hsel' : (match dictGet entries ("installed".toList) with
              | some w => some w
              | none => dictGet entries ("web".toList)) = some v := hsel
          rw [hI] at hsel'
          have hW : dictGet entries ("web".toList) = some v := hsel'
          rw [extract_obj_web entries v hI hW, sectionCreds_not_obj v hv]
        · have hsel' : (match dictGet entries ("installed".toList) with
              | some w => some w
              | none => dictGet entries ("web".toList)) = some v := hsel
          rw [hI] at hsel'
          have hvI : vI = v := Option.some.inj hsel'
          subst hvI
          rw [extract_obj_installed entries vI hI, sectionCreds_not_obj vI hv]
      | null => simp [selectedSection] at hsel
      | bool b => simp [selectedSection] at hsel
      | num n => simp [selectedSection] at hsel
      | str s => simp [selectedSection] at hsel
      | arr elems => simp [selectedSection] at hsel
  obtain ⟨l, hout, hcred⟩ := extract_error_lines _ hfail
  rw [extractor_main_failure argv _ ha hfail]
  refine ⟨rfl, ?_⟩
  intro x hx
  rw [hout] at hx
  simp only [List.mem_singleton] at hx
  subst hx
  exact hcred

/-- Witness for C10 at a document whose top level is the number 5. -/
theorem extractor_shape_error_handling_witness :
    (extractor_main [("prog".toList), ("f.json".toList)] (.parsed (.num 5))).1 = 1
    ∧ ∀ l ∈ (extractor_main [("prog".toList), ("f.json".toList)]
        (.parsed (.num 5))).2, isCredLine l = false :=
  extractor_shape_error_handling [("prog".toList), ("f.json".toList)] (.num 5)
    (by decide) (Or.inl rfl)

end TaskManager
